import Mathlib

/-!
Verification of the asynchronous job-tracking core of the Auto-ml-train
backend (the Express server in src/src/UploadDataset.jsx).

The embedding models:
- the in-memory job store `const jobs = {}` as an association list from
  job ids to job records;
- `app.post("/api/upload", ...)` as `handleUpload`, parameterised over the
  outcome of the Supabase storage call (an external collaborator);
- `app.post("/api/callback", ...)` as `handleCallback`;
- `app.get("/api/status/:jobId", ...)` as `handleStatus`;
- server executions as traces of events acting on the registry (`runAcc`),
  with the uuid freshness of generated job ids captured by `freshIds`.

JavaScript truthiness is modelled faithfully: a missing field is `none`
and the empty string is falsy, so the check `if (!email)` becomes
`email = none or email = some ""` and `status || "completed"` becomes
`statusOrCompleted`. Each handler runs atomically here, matching the
single-threaded event loop: the callback handler performs its three
assignments with no await point between them. The fire-and-forget n8n
trigger never touches the registry (its .catch only logs), so it has no
effect in the model and is omitted.
-/

/-- Result payload attached by the callback handler:
`jobs[jobId].result = { display_metric, message }`. -/
structure ResultPayload where
  display_metric : Option String
  message : Option String
  deriving Repr, DecidableEq

/-- One record of the in-memory job store. Fields mirror the object
literal created at job initialisation plus the fields later mutated:
`status`, `progress`, `result` (callback handler) and `message`
(upload error path). -/
structure Job where
  id : String
  status : String
  progress : Nat
  email : String
  result : Option ResultPayload
  message : Option String
  deriving Repr, DecidableEq

/-- The job registry `const jobs = {}`, as an association list keyed by
job id (keys are unique along reachable traces since uuids are fresh). -/
abbrev Registry := List (String × Job)

/-- Property lookup `jobs[jobId]`. -/
def lookupJob : Registry → String → Option Job
  | [], _ => none
  | (k, j) :: rest, id => if k = id then some j else lookupJob rest id

/-- Property assignment `jobs[jobId] = record` (replaces an existing
binding, otherwise appends a new one). -/
def setJob : Registry → String → Job → Registry
  | [], id, j => [(id, j)]
  | (k, j0) :: rest, id, j =>
      if k = id then (k, j) :: rest else (k, j0) :: setJob rest id j

/-- Outcome of the Supabase storage upload, the only awaited external
call before the response: `supabase.storage.from("ml-datasets").upload`
returns either data (with a path, from which a public URL is derived) or
an error object. -/
inductive StorageResult
  | ok (url : String)
  | err (msg : String)
  deriving Repr, DecidableEq

/-- Response of the upload route: 400 with a message, 500 with a
message, or 200 with the job id. -/
inductive UploadResp
  | badRequest (message : String)
  | serverError (message : String)
  | success (jobId : String)
  deriving Repr, DecidableEq

/-- Response of the status route: 404 or the full job record. -/
inductive StatusResp
  | notFound
  | found (job : Job)
  deriving Repr, DecidableEq

/-- Response of the callback route. -/
inductive CallbackResp
  | success
  | failure
  deriving Repr, DecidableEq

/-- Body of a callback request:
`const { jobId, status, display_metric, message } = req.body`.
Absent JSON fields are `none`. -/
structure CallbackReq where
  jobId : Option String
  status : Option String
  display_metric : Option String
  message : Option String
  deriving Repr, DecidableEq

/-- The JavaScript expression `status || "completed"`: any falsy status
(absent field or empty string) defaults to "completed". -/
def statusOrCompleted : Option String → String
  | none => "completed"
  | some s => if s = "" then "completed" else s

/-- The upload route. `hasCsv` is the check `req.files?.csv`; `email` is
`req.body.email`; `storage` is the Supabase outcome. Returns the new
registry, the HTTP response, and whether `fs.unlinkSync` ran on the
local transient copy of the payload. The registry entry is created
before the storage interaction; on storage failure the catch block marks
the job error (the entry exists, so the guard `if (jobs[jobId])`
passes) and responds 500 without unlinking the local file. -/
def handleUpload (jobs : Registry) (jobId : String) (hasCsv : Bool)
    (email : Option String) (storage : StorageResult) :
    Registry × UploadResp × Bool :=
  if hasCsv = false then
    (jobs, UploadResp.badRequest "CSV file is required", false)
  else if email = none ∨ email = some "" then
    (jobs, UploadResp.badRequest "Email is required", false)
  else
    let init : Job :=
      { id := jobId, status := "uploading", progress := 10,
        email := email.getD "", result := none, message := none }
    let jobs1 := setJob jobs jobId init
    match storage with
    | StorageResult.err m =>
        let errMsg := "Supabase upload failed: " ++ m
        (setJob jobs1 jobId { init with status := "error", message := some errMsg },
         UploadResp.serverError ("Upload process failed: " ++ errMsg),
         false)
    | StorageResult.ok _ =>
        (setJob jobs1 jobId { init with status := "training", progress := 40 },
         UploadResp.success jobId,
         true)

/-- The callback route: `if (jobId && jobs[jobId])` then assign status,
progress 100 and result; always respond success. -/
def handleCallback (jobs : Registry) (req : CallbackReq) :
    Registry × CallbackResp :=
  match req.jobId with
  | none => (jobs, CallbackResp.success)
  | some jid =>
      if jid = "" then (jobs, CallbackResp.success)
      else
        match lookupJob jobs jid with
        | none => (jobs, CallbackResp.success)
        | some j =>
            (setJob jobs jid
              { j with status := statusOrCompleted req.status,
                       progress := 100,
                       result := some { display_metric := req.display_metric,
                                        message := req.message } },
             CallbackResp.success)

/-- The status route: 404 when the id is absent, otherwise the record. -/
def handleStatus (jobs : Registry) (jid : String) : StatusResp :=
  match lookupJob jobs jid with
  | none => StatusResp.notFound
  | some j => StatusResp.found j

/-- One externally triggered server action. Status queries never touch
the registry. -/
inductive Event
  | upload (jobId : String) (hasCsv : Bool) (email : Option String)
      (storage : StorageResult)
  | callback (req : CallbackReq)
  | statusQuery (jid : String)
  deriving Repr, DecidableEq

/-- Effect of one event on the registry. -/
def step : Registry → Event → Registry
  | jobs, Event.upload jid hasCsv email storage =>
      (handleUpload jobs jid hasCsv email storage).1
  | jobs, Event.callback req => (handleCallback jobs req).1
  | jobs, Event.statusQuery _ => jobs

/-- Run a trace of events from a given registry. -/
def runAcc : Registry → List Event → Registry
  | jobs, [] => jobs
  | jobs, e :: es => runAcc (step jobs e) es

/-- Run a trace from the empty registry, the server start state. -/
def run (es : List Event) : Registry := runAcc [] es

/-- The job id of an upload event is fresh at that point of the trace
(uuidv4 never collides with an existing id). -/
def freshOk (jobs : Registry) : Event → Bool
  | Event.upload jid _ _ _ => (lookupJob jobs jid).isNone
  | _ => true

/-- Every upload in the trace uses a fresh job id. -/
def freshIds : Registry → List Event → Bool
  | _, [] => true
  | jobs, e :: es => freshOk jobs e && freshIds (step jobs e) es

/-- The event is a callback whose job id is truthy, equals `id`, and
matches a registry entry at this point, i.e. the guarded mutation
branch of the callback handler fires for `id`. -/
def matchedNow (jobs : Registry) (e : Event) (id : String) : Bool :=
  match e with
  | Event.callback req =>
      match req.jobId with
      | some jid =>
          decide (jid = id) && decide (¬ jid = "") && (lookupJob jobs jid).isSome
      | none => false
  | _ => false

/-- Some event of the trace is a matched callback for `id`. -/
def cbMatched : Registry → List Event → String → Bool
  | _, [], _ => false
  | jobs, e :: es, id => matchedNow jobs e id || cbMatched (step jobs e) es id

/-- The record for `id`, if present, has its result field set. -/
def hasResult (jobs : Registry) (id : String) : Bool :=
  match lookupJob jobs id with
  | some j => j.result.isSome
  | none => false

theorem lookup_setJob_same (jobs : Registry) (id : String) (j : Job) :
    lookupJob (setJob jobs id j) id = some j := by
  induction jobs with
  | nil => simp [setJob, lookupJob]
  | cons p rest ih =>
      obtain ⟨k, j0⟩ := p
      by_cases h : k = id
      · simp [setJob, lookupJob, h]
      · simp [setJob, lookupJob, h, ih]

theorem lookup_setJob_ne (jobs : Registry) (id id' : String) (j : Job)
    (h : id' ≠ id) :
    lookupJob (setJob jobs id j) id' = lookupJob jobs id' := by
  induction jobs with
  | nil => simp [setJob, lookupJob, h.symm]
  | cons p rest ih =>
      obtain ⟨k, j0⟩ := p
      by_cases hk : k = id
      · subst hk
        simp [setJob, lookupJob, h.symm]
      · by_cases hk' : k = id'
        · simp [setJob, lookupJob, hk, hk', h, ih]
        · simp [setJob, lookupJob, hk, hk', h, ih]

theorem setJob_setJob (jobs : Registry) (id : String) (j j' : Job) :
    setJob (setJob jobs id j) id j' = setJob jobs id j' := by
  induction jobs with
  | nil => simp [setJob]
  | cons p rest ih =>
      obtain ⟨k, j0⟩ := p
      by_cases h : k = id
      · simp [setJob, h]
      · simp [setJob, h, ih]

theorem handleUpload_lookup (jobs : Registry) (jid : String) (hasCsv : Bool)
    (email : Option String) (storage : StorageResult) (id : String) :
    lookupJob (handleUpload jobs jid hasCsv email storage).1 id =
      if hasCsv = false then lookupJob jobs id
      else if email = none ∨ email = some "" then lookupJob jobs id
      else if id = jid then
        some (match storage with
          | StorageResult.ok _ =>
              { id := jid, status := "training", progress := 40,
                email := email.getD "", result := none, message := none }
          | StorageResult.err m =>
              { id := jid, status := "error", progress := 10,
                email := email.getD "", result := none,
                message := some ("Supabase upload failed: " ++ m) })
      else lookupJob jobs id := by
  by_cases hc : hasCsv = false
  · simp [handleUpload, hc]
  · by_cases he : email = none ∨ email = some ""
    · simp [handleUpload, hc, he]
    · by_cases hid : id = jid
      · subst hid
        cases storage <;>
          simp [handleUpload, hc, he, setJob_setJob, lookup_setJob_same]
      · cases storage <;>
          simp [handleUpload, hc, he, hid, setJob_setJob, lookup_setJob_ne _ _ _ _ hid]

theorem handleCallback_lookup (jobs : Registry) (req : CallbackReq) (id : String) :
    lookupJob (handleCallback jobs req).1 id =
      match req.jobId with
      | none => lookupJob jobs id
      | some jid =>
          if jid = "" then lookupJob jobs id
          else
            match lookupJob jobs jid with
            | none => lookupJob jobs id
            | some j =>
                if id = jid then
                  some { j with status := statusOrCompleted req.status,
                                progress := 100,
                                result := some { display_metric := req.display_metric,
                                                 message := req.message } }
                else lookupJob jobs id := by
  cases hreq : req.jobId with
  | none => simp [handleCallback, hreq]
  | some jid =>
      by_cases hz : jid = ""
      · simp [handleCallback, hreq, hz]
      · cases hlook : lookupJob jobs jid with
        | none => simp [handleCallback, hreq, hz, hlook]
        | some j =>
            by_cases hid : id = jid
            · subst hid
              simp [handleCallback, hreq, hz, hlook, lookup_setJob_same]
            · simp [handleCallback, hreq, hz, hlook, hid,
                    lookup_setJob_ne _ _ _ _ hid]

theorem handleCallback_resp (jobs : Registry) (req : CallbackReq) :
    (handleCallback jobs req).2 = CallbackResp.success := by
  cases hreq : req.jobId with
  | none => simp [handleCallback, hreq]
  | some jid =>
      by_cases hz : jid = ""
      · simp [handleCallback, hreq, hz]
      · cases hlook : lookupJob jobs jid <;> simp [handleCallback, hreq, hz, hlook]

theorem step_preserves_presence (jobs : Registry) (e : Event) (id : String)
    (h : (lookupJob jobs id).isSome = true) :
    (lookupJob (step jobs e) id).isSome = true := by
  cases e with
  | statusQuery q => exact h
  | upload jid hasCsv email storage =>
      show (lookupJob (handleUpload jobs jid hasCsv email storage).1 id).isSome = true
      rw [handleUpload_lookup]
      split
      · exact h
      · split
        · exact h
        · split
          · simp
          · exact h
  | callback req =>
      show (lookupJob (handleCallback jobs req).1 id).isSome = true
      rw [handleCallback_lookup]
      split
      · exact h
      · split
        · exact h
        · split
          · exact h
          · split
            · simp
            · exact h

theorem runAcc_append (es es' : List Event) (jobs : Registry) :
    runAcc jobs (es ++ es') = runAcc (runAcc jobs es) es' := by
  induction es generalizing jobs with
  | nil => rfl
  | cons e es ih => simp [runAcc, ih]

theorem freshIds_append (es es' : List Event) (jobs : Registry) :
    freshIds jobs (es ++ es') =
      (freshIds jobs es && freshIds (runAcc jobs es) es') := by
  induction es generalizing jobs with
  | nil => simp [freshIds, runAcc]
  | cons e es ih => simp [freshIds, runAcc, ih, Bool.and_assoc]

/-- Every reachable progress value is at most 100. -/
def progLe (jobs : Registry) : Prop :=
  ∀ id j, lookupJob jobs id = some j → j.progress ≤ 100

theorem progLe_step (jobs : Registry) (e : Event) (h : progLe jobs) :
    progLe (step jobs e) := by
  intro id j hj
  cases e with
  | statusQuery q => exact h id j hj
  | upload jid hasCsv email storage =>
      rw [show step jobs (Event.upload jid hasCsv email storage)
            = (handleUpload jobs jid hasCsv email storage).1 from rfl,
          handleUpload_lookup] at hj
      split at hj
      · exact h id j hj
      · split at hj
        · exact h id j hj
        · split at hj
          · cases storage <;> (injection hj with hj; subst hj; simp)
          · exact h id j hj
  | callback req =>
      rw [show step jobs (Event.callback req) = (handleCallback jobs req).1 from rfl,
          handleCallback_lookup] at hj
      split at hj
      · exact h id j hj
      · split at hj
        · exact h id j hj
        · split at hj
          · exact h id j hj
          · split at hj
            · injection hj with hj; subst hj; simp
            · exact h id j hj

theorem progLe_runAcc (es : List Event) (jobs : Registry) (h : progLe jobs) :
    progLe (runAcc jobs es) := by
  induction es generalizing jobs with
  | nil => exact h
  | cons e es ih => exact ih (step jobs e) (progLe_step jobs e h)

theorem progLe_nil : progLe [] := by
  intro id j hj
  simp [lookupJob] at hj

theorem step_mono (jobs : Registry) (e : Event) (id : String) (j j' : Job)
    (hinv : progLe jobs) (hfresh : freshOk jobs e = true)
    (hj : lookupJob jobs id = some j)
    (hj' : lookupJob (step jobs e) id = some j') :
    j.progress ≤ j'.progress := by
  cases e with
  | statusQuery q =>
      rw [show step jobs (Event.statusQuery q) = jobs from rfl, hj] at hj'
      injection hj' with hj'
      subst hj'
      exact le_refl _
  | upload jid hasCsv email storage =>
      rw [show step jobs (Event.upload jid hasCsv email storage)
            = (handleUpload jobs jid hasCsv email storage).1 from rfl,
          handleUpload_lookup] at hj'
      split at hj'
      · rw [hj] at hj'; injection hj' with hj'; subst hj'; exact le_refl _
      · split at hj'
        · rw [hj] at hj'; injection hj' with hj'; subst hj'; exact le_refl _
        · split at hj'
          · rename_i hid
            subst hid
            simp [freshOk, hj, Option.isNone] at hfresh
          · rw [hj] at hj'; injection hj' with hj'; subst hj'; exact le_refl _
  | callback req =>
      rw [show step jobs (Event.callback req) = (handleCallback jobs req).1 from rfl,
          handleCallback_lookup] at hj'
      split at hj'
      · rw [hj] at hj'; injection hj' with hj'; subst hj'; exact le_refl _
      · split at hj'
        · rw [hj] at hj'; injection hj' with hj'; subst hj'; exact le_refl _
        · split at hj'
          · rw [hj] at hj'; injection hj' with hj'; subst hj'; exact le_refl _
          · split at hj'
            · injection hj' with hj'
              subst hj'
              exact hinv id j hj
            · rw [hj] at hj'; injection hj' with hj'; subst hj'; exact le_refl _

theorem runAcc_mono (es : List Event) (jobs : Registry) (id : String)
    (j j' : Job) (hinv : progLe jobs) (hfresh : freshIds jobs es = true)
    (hj : lookupJob jobs id = some j)
    (hj' : lookupJob (runAcc jobs es) id = some j') :
    j.progress ≤ j'.progress := by
  induction es generalizing jobs j with
  | nil =>
      rw [show runAcc jobs [] = jobs from rfl, hj] at hj'
      injection hj' with hj'
      subst hj'
      exact le_refl _
  | cons e es ih =>
      have hsplit := (Bool.and_eq_true _ _).mp (by simpa [freshIds] using hfresh)
      have hpres : (lookupJob (step jobs e) id).isSome = true :=
        step_preserves_presence jobs e id (by simp [hj])
      cases hm : lookupJob (step jobs e) id with
      | none => rw [hm] at hpres; simp at hpres
      | some jm =>
          have h1 : j.progress ≤ jm.progress :=
            step_mono jobs e id j jm hinv hsplit.1 hj hm
          have h2 : jm.progress ≤ j'.progress :=
            ih (step jobs e) jm (progLe_step jobs e hinv) hsplit.2 hm
              (by simpa [runAcc] using hj')
          exact le_trans h1 h2

theorem hasResult_step (jobs : Registry) (e : Event) (id : String)
    (hfresh : freshOk jobs e = true) :
    hasResult (step jobs e) id = (hasResult jobs id || matchedNow jobs e id) := by
  cases e with
  | statusQuery q => simp [step, matchedNow]
  | upload jid hasCsv email storage =>
      have hl := handleUpload_lookup jobs jid hasCsv email storage id
      rw [show (handleUpload jobs jid hasCsv email storage).1
            = step jobs (Event.upload jid hasCsv email storage) from rfl] at hl
      by_cases hc : hasCsv = false
      · rw [if_pos hc] at hl
        simp [hasResult, hl, matchedNow]
      · rw [if_neg hc] at hl
        by_cases he : email = none ∨ email = some ""
        · rw [if_pos he] at hl
          simp [hasResult, hl, matchedNow]
        · rw [if_neg he] at hl
          by_cases hid : id = jid
          · rw [if_pos hid] at hl
            subst hid
            have hnone : lookupJob jobs id = none := by
              simpa [freshOk, Option.isNone_iff_eq_none] using hfresh
            cases storage <;> simp [hasResult, hl, hnone, matchedNow]
          · rw [if_neg hid] at hl
            simp [hasResult, hl, matchedNow]
  | callback req =>
      have hl := handleCallback_lookup jobs req id
      rw [show (handleCallback jobs req).1 = step jobs (Event.callback req) from rfl] at hl
      cases hreq : req.jobId with
      | none =>
          simp only [hreq] at hl
          simp [hasResult, hl, matchedNow, hreq]
      | some jid =>
          simp only [hreq] at hl
          by_cases hz : jid = ""
          · rw [if_pos hz] at hl
            simp [hasResult, hl, matchedNow, hreq, hz]
          · rw [if_neg hz] at hl
            cases hlook : lookupJob jobs jid with
            | none =>
                simp only [hlook] at hl
                simp [hasResult, hl, matchedNow, hreq, hz, hlook]
            | some j0 =>
                simp only [hlook] at hl
                by_cases hid : id = jid
                · rw [if_pos hid] at hl
                  subst hid
                  simp [hasResult, hl, matchedNow, hreq, hz, hlook]
                · rw [if_neg hid] at hl
                  simp [hasResult, hl, matchedNow, hreq, hz, hlook, Ne.symm hid]

theorem hasResult_runAcc (es : List Event) (jobs : Registry) (id : String)
    (hfresh : freshIds jobs es = true) :
    hasResult (runAcc jobs es) id = (hasResult jobs id || cbMatched jobs es id) := by
  induction es generalizing jobs with
  | nil => simp [runAcc, cbMatched]
  | cons e es ih =>
      have hsplit := (Bool.and_eq_true _ _).mp (by simpa [freshIds] using hfresh)
      rw [show runAcc jobs (e :: es) = runAcc (step jobs e) es from rfl,
          ih (step jobs e) hsplit.2,
          hasResult_step jobs e id hsplit.1,
          show cbMatched jobs (e :: es) id
            = (matchedNow jobs e id || cbMatched (step jobs e) es id) from rfl,
          Bool.or_assoc]

/-- Every reachable record with status completed has its result set. -/
def completedInv (jobs : Registry) : Prop :=
  ∀ id j, lookupJob jobs id = some j → j.status = "completed" →
    j.result.isSome = true

theorem completedInv_step (jobs : Registry) (e : Event) (h : completedInv jobs) :
    completedInv (step jobs e) := by
  intro id j hj hst
  cases e with
  | statusQuery q => exact h id j hj hst
  | upload jid hasCsv email storage =>
      rw [show step jobs (Event.upload jid hasCsv email storage)
            = (handleUpload jobs jid hasCsv email storage).1 from rfl,
          handleUpload_lookup] at hj
      split at hj
      · exact h id j hj hst
      · split at hj
        · exact h id j hj hst
        · split at hj
          · cases storage <;> (injection hj with hj; subst hj; simp at hst)
          · exact h id j hj hst
  | callback req =>
      rw [show step jobs (Event.callback req) = (handleCallback jobs req).1 from rfl,
          handleCallback_lookup] at hj
      split at hj
      · exact h id j hj hst
      · split at hj
        · exact h id j hj hst
        · split at hj
          · exact h id j hj hst
          · split at hj
            · injection hj with hj; subst hj; simp
            · exact h id j hj hst

theorem completedInv_runAcc (es : List Event) (jobs : Registry)
    (h : completedInv jobs) : completedInv (runAcc jobs es) := by
  induction es generalizing jobs with
  | nil => exact h
  | cons e es ih => exact ih (step jobs e) (completedInv_step jobs e h)

theorem completedInv_nil : completedInv [] := by
  intro id j hj
  simp [lookupJob] at hj

/-- Claim C4: for every valid upload (payload present and non-empty
contact address), a registry entry for the returned job id exists
immediately after the upload response, with status training on storage
success and status error on storage failure, hence always in the set
containing training and error and never absent. The entry is written
before the content store interaction, so it exists even when storage
fails, which is the observable content of the write-before-store
ordering. -/
theorem valid_upload_registers_job (jobs : Registry) (jid : String)
    (email : Option String) (e : String) (storage : StorageResult)
    (he : email = some e) (hne : e ≠ "") :
    ∃ j, lookupJob (handleUpload jobs jid true email storage).1 jid = some j ∧
      (j.status = "training" ∨ j.status = "error") ∧
      (∀ u, storage = StorageResult.ok u → j.status = "training") ∧
      (∀ m, storage = StorageResult.err m → j.status = "error") := by
  subst he
  have hl := handleUpload_lookup jobs jid true (some e) storage jid
  rw [if_neg (by simp : ¬ (true = false)),
      if_neg (by simp [hne] : ¬ ((some e : Option String) = none ∨ some e = some "")),
      if_pos rfl] at hl
  cases storage with
  | ok u =>
      exact ⟨_, hl, Or.inl rfl, fun _ _ => rfl, fun m hm => by simp at hm⟩
  | err m =>
      exact ⟨_, hl, Or.inr rfl, fun u hu => by simp at hu, fun _ _ => rfl⟩

theorem valid_upload_registers_job_witness :
    ∃ j, lookupJob
        (handleUpload [] "j1" true (some "a@b.c") (StorageResult.ok "u")).1 "j1"
        = some j ∧
      (j.status = "training" ∨ j.status = "error") ∧
      (∀ u, StorageResult.ok "u" = StorageResult.ok u → j.status = "training") ∧
      (∀ m, StorageResult.ok "u" = StorageResult.err m → j.status = "error") :=
  valid_upload_registers_job [] "j1" (some "a@b.c") "a@b.c"
    (StorageResult.ok "u") rfl (by decide)

/-- Claim C8: an upload with a missing payload or a missing contact
address is rejected with a client error (HTTP 400) and the registry is
unchanged, so no job record is created for that attempt. Both
validation checks run before the job record initialisation. -/
theorem invalid_upload_rejected (jobs : Registry) (jid : String)
    (hasCsv : Bool) (email : Option String) (storage : StorageResult)
    (h : hasCsv = false ∨ email = none) :
    (handleUpload jobs jid hasCsv email storage).1 = jobs ∧
    ∃ m, (handleUpload jobs jid hasCsv email storage).2.1
      = UploadResp.badRequest m := by
  cases h with
  | inl hc =>
      subst hc
      exact ⟨by simp [handleUpload], "CSV file is required", by simp [handleUpload]⟩
  | inr he =>
      subst he
      by_cases hc : hasCsv = false
      · exact ⟨by simp [handleUpload, hc], "CSV file is required",
               by simp [handleUpload, hc]⟩
      · exact ⟨by simp [handleUpload, hc], "Email is required",
               by simp [handleUpload, hc]⟩

theorem invalid_upload_rejected_witness :
    (handleUpload [] "j1" true none (StorageResult.ok "u")).1 = [] ∧
    ∃ m, (handleUpload [] "j1" true none (StorageResult.ok "u")).2.1
      = UploadResp.badRequest m :=
  invalid_upload_rejected [] "j1" true none (StorageResult.ok "u") (Or.inr rfl)

/-- Claim C5: for a job id absent from the registry, the status route
answers 404 not-found, and a callback carrying that id responds success
to the caller while leaving the registry exactly as it was, in
particular creating no new entry. -/
theorem unknown_job_id_handling (jobs : Registry) (jid : String)
    (req : CallbackReq) (hnone : lookupJob jobs jid = none)
    (hreq : req.jobId = some jid) :
    handleStatus jobs jid = StatusResp.notFound ∧
    (handleCallback jobs req).1 = jobs ∧
    (handleCallback jobs req).2 = CallbackResp.success := by
  refine ⟨by simp [handleStatus, hnone], ?_, handleCallback_resp jobs req⟩
  by_cases hz : jid = ""
  · simp [handleCallback, hreq, hz]
  · simp [handleCallback, hreq, hz, hnone]

theorem unknown_job_id_handling_witness :
    handleStatus [] "ghost" = StatusResp.notFound ∧
    (handleCallback []
      { jobId := some "ghost", status := some "completed",
        display_metric := none, message := none }).1 = [] ∧
    (handleCallback []
      { jobId := some "ghost", status := some "completed",
        display_metric := none, message := none }).2 = CallbackResp.success :=
  unknown_job_id_handling [] "ghost"
    { jobId := some "ghost", status := some "completed",
      display_metric := none, message := none } rfl rfl

/-- Claim C6: callback processing is idempotent. For a job id present in
the registry, applying the same callback payload twice yields the same
registry (hence the same final job record) as applying it once, and the
second application also responds success, without error: the handler
recomputes status, progress and result from the payload alone. -/
theorem callback_idempotent (jobs : Registry) (jid : String) (j : Job)
    (req : CallbackReq) (hreq : req.jobId = some jid)
    (hj : lookupJob jobs jid = some j) :
    (handleCallback (handleCallback jobs req).1 req).1
      = (handleCallback jobs req).1 ∧
    (handleCallback (handleCallback jobs req).1 req).2
      = CallbackResp.success := by
  refine ⟨?_, handleCallback_resp _ _⟩
  by_cases hz : jid = ""
  · simp [handleCallback, hreq, hz]
  · have h1 : (handleCallback jobs req).1
        = setJob jobs jid
            { j with status := statusOrCompleted req.status, progress := 100,
                     result := some { display_metric := req.display_metric,
                                      message := req.message } } := by
      simp [handleCallback, hreq, hz, hj]
    rw [h1]
    simp [handleCallback, hreq, hz, lookup_setJob_same, setJob_setJob]

theorem callback_idempotent_witness :
    (handleCallback (handleCallback
        [("j1", { id := "j1", status := "training", progress := 40,
                  email := "a@b", result := none, message := none })]
        { jobId := some "j1", status := some "completed",
          display_metric := some "0.92", message := some "done" }).1
        { jobId := some "j1", status := some "completed",
          display_metric := some "0.92", message := some "done" }).1
      = (handleCallback
        [("j1", { id := "j1", status := "training", progress := 40,
                  email := "a@b", result := none, message := none })]
        { jobId := some "j1", status := some "completed",
          display_metric := some "0.92", message := some "done" }).1 ∧
    (handleCallback (handleCallback
        [("j1", { id := "j1", status := "training", progress := 40,
                  email := "a@b", result := none, message := none })]
        { jobId := some "j1", status := some "completed",
          display_metric := some "0.92", message := some "done" }).1
        { jobId := some "j1", status := some "completed",
          display_metric := some "0.92", message := some "done" }).2
      = CallbackResp.success :=
  callback_idempotent
    [("j1", { id := "j1", status := "training", progress := 40,
              email := "a@b", result := none, message := none })]
    "j1"
    { id := "j1", status := "training", progress := 40,
      email := "a@b", result := none, message := none }
    { jobId := some "j1", status := some "completed",
      display_metric := some "0.92", message := some "done" }
    rfl rfl

/-- Claim C10: for a matched callback whose status field is present and
non-empty, the stored status becomes exactly the supplied string, with
no validation against the documented status set; the witness stores the
string banana, which lies outside that set. -/
theorem callback_stores_unvalidated_status (jobs : Registry) (jid : String)
    (j : Job) (s : String) (req : CallbackReq) (hreq : req.jobId = some jid)
    (hz : jid ≠ "") (hj : lookupJob jobs jid = some j)
    (hs : req.status = some s) (hsne : s ≠ "") :
    (lookupJob (handleCallback jobs req).1 jid).map Job.status = some s := by
  simp [handleCallback, hreq, hz, hj, lookup_setJob_same, statusOrCompleted,
        hs, hsne]

theorem callback_stores_unvalidated_status_witness :
    ("banana" ∉ (["uploading", "training", "completed", "error"] : List String)) ∧
    (lookupJob (handleCallback
        [("j1", { id := "j1", status := "training", progress := 40,
                  email := "a@b", result := none, message := none })]
        { jobId := some "j1", status := some "banana",
          display_metric := none, message := none }).1 "j1").map Job.status
      = some "banana" :=
  ⟨by decide,
   callback_stores_unvalidated_status
     [("j1", { id := "j1", status := "training", progress := 40,
               email := "a@b", result := none, message := none })]
     "j1"
     { id := "j1", status := "training", progress := 40,
       email := "a@b", result := none, message := none }
     "banana"
     { jobId := some "j1", status := some "banana",
       display_metric := none, message := none }
     rfl (by decide) rfl rfl (by decide)⟩

/-- Claim C9: along any reachable trace with fresh upload ids, the
progress of a single job never decreases: the recorded values follow
uploading 10, training 40, terminal 100, and every later state of the
same job has progress at least as large as any earlier state. -/
theorem progress_monotone (es es' : List Event) (id : String) (j j' : Job)
    (hfresh : freshIds [] (es ++ es') = true)
    (hj : lookupJob (run es) id = some j)
    (hj' : lookupJob (run (es ++ es')) id = some j') :
    j.progress ≤ j'.progress := by
  have hsplit := (Bool.and_eq_true _ _).mp
    (by simpa [freshIds_append] using hfresh)
  have hinv : progLe (run es) := progLe_runAcc es [] progLe_nil
  have hj'' : lookupJob (runAcc (run es) es') id = some j' := by
    simpa [run, runAcc_append] using hj'
  exact runAcc_mono es' (run es) id j j' hinv hsplit.2 hj hj''

theorem progress_monotone_witness :
    ({ id := "j1", status := "training", progress := 40, email := "a@b",
       result := none, message := none } : Job).progress ≤
    ({ id := "j1", status := "completed", progress := 100, email := "a@b",
       result := some { display_metric := some "0.92", message := some "done" },
       message := none } : Job).progress :=
  progress_monotone
    [Event.upload "j1" true (some "a@b") (StorageResult.ok "u")]
    [Event.callback { jobId := some "j1", status := some "completed",
                      display_metric := some "0.92", message := some "done" }]
    "j1"
    { id := "j1", status := "training", progress := 40, email := "a@b",
      result := none, message := none }
    { id := "j1", status := "completed", progress := 100, email := "a@b",
      result := some { display_metric := some "0.92", message := some "done" },
      message := none }
    (by decide) (by decide) (by decide)

/-- Claim C1 counterexample: after a valid upload, a callback that
reports status error (not a terminal success status) still sets the
result field, so the reachable final record has status error together
with a non-empty result, refuting both the only-if direction of the
claim and its clause that no record has status error with a non-empty
result. -/
theorem error_status_with_result_counterexample :
    freshIds []
      [Event.upload "j1" true (some "a@b") (StorageResult.ok "u"),
       Event.callback { jobId := some "j1", status := some "error",
                        display_metric := some "0.9", message := some "failed" }]
      = true ∧
    lookupJob (run
      [Event.upload "j1" true (some "a@b") (StorageResult.ok "u"),
       Event.callback { jobId := some "j1", status := some "error",
                        display_metric := some "0.9", message := some "failed" }])
      "j1"
      = some { id := "j1", status := "error", progress := 100, email := "a@b",
               result := some { display_metric := some "0.9",
                                message := some "failed" },
               message := none } := by decide

/-- Claim C1 (amended): along any reachable trace with fresh upload ids,
the result field of a job record is set if and only if a callback
matching that id has been processed, regardless of the status the
callback reported; every record with status completed has its result
set, but a record with status error may also carry a result, namely
when the error was reported through a callback. -/
theorem result_set_iff_callback_matched (es : List Event) (id : String)
    (j : Job) (hfresh : freshIds [] es = true)
    (hj : lookupJob (run es) id = some j) :
    (j.result.isSome = cbMatched [] es id) ∧
    (j.status = "completed" → j.result.isSome = true) := by
  constructor
  · have h := hasResult_runAcc es [] id hfresh
    simp only [show runAcc [] es = run es from rfl, hasResult, hj,
               lookupJob] at h
    simpa using h
  · exact completedInv_runAcc es [] completedInv_nil id j hj

theorem result_set_iff_callback_matched_witness :
    (({ id := "j1", status := "completed", progress := 100, email := "a@b",
        result := some { display_metric := some "0.92", message := some "done" },
        message := none } : Job).result.isSome
      = cbMatched []
          [Event.upload "j1" true (some "a@b") (StorageResult.ok "u"),
           Event.callback { jobId := some "j1", status := some "completed",
                            display_metric := some "0.92",
                            message := some "done" }] "j1") ∧
    (({ id := "j1", status := "completed", progress := 100, email := "a@b",
        result := some { display_metric := some "0.92", message := some "done" },
        message := none } : Job).status = "completed" →
      ({ id := "j1", status := "completed", progress := 100, email := "a@b",
         result := some { display_metric := some "0.92", message := some "done" },
         message := none } : Job).result.isSome = true) :=
  result_set_iff_callback_matched
    [Event.upload "j1" true (some "a@b") (StorageResult.ok "u"),
     Event.callback { jobId := some "j1", status := some "completed",
                      display_metric := some "0.92", message := some "done" }]
    "j1"
    { id := "j1", status := "completed", progress := 100, email := "a@b",
      result := some { display_metric := some "0.92", message := some "done" },
      message := none }
    (by decide) (by decide)

/-- Claim C2 counterexample: a job brought to the terminal status
completed by one callback is moved to status training by a later
callback on the same reachable trace, so a transition out of a terminal
state exists. -/
theorem terminal_state_overwritten_counterexample :
    freshIds []
      [Event.upload "j1" true (some "a@b") (StorageResult.ok "u"),
       Event.callback { jobId := some "j1", status := some "completed",
                        display_metric := some "0.92", message := some "done" },
       Event.callback { jobId := some "j1", status := some "training",
                        display_metric := none, message := none }] = true ∧
    (lookupJob (run
      [Event.upload "j1" true (some "a@b") (StorageResult.ok "u"),
       Event.callback { jobId := some "j1", status := some "completed",
                        display_metric := some "0.92", message := some "done" }])
      "j1").map Job.status = some "completed" ∧
    (lookupJob (run
      [Event.upload "j1" true (some "a@b") (StorageResult.ok "u"),
       Event.callback { jobId := some "j1", status := some "completed",
                        display_metric := some "0.92", message := some "done" },
       Event.callback { jobId := some "j1", status := some "training",
                        display_metric := none, message := none }])
      "j1").map Job.status = some "training" := by decide

/-- Claim C2 (amended): completed and error are not enforced as
terminal states: the callback handler overwrites the status of any
matched job, whatever its current status, with the reported value
(defaulting to completed), so a job in a terminal state can be moved
out of it by any further matched callback. -/
theorem callback_overwrites_terminal (jobs : Registry) (jid : String)
    (j : Job) (req : CallbackReq) (hreq : req.jobId = some jid)
    (hz : jid ≠ "") (hj : lookupJob jobs jid = some j)
    (_hterm : j.status = "completed" ∨ j.status = "error") :
    (lookupJob (handleCallback jobs req).1 jid).map Job.status
      = some (statusOrCompleted req.status) := by
  simp [handleCallback, hreq, hz, hj, lookup_setJob_same]

theorem callback_overwrites_terminal_witness :
    (lookupJob (handleCallback
        [("j1", { id := "j1", status := "completed", progress := 100,
                  email := "a@b",
                  result := some { display_metric := some "0.92",
                                   message := some "done" },
                  message := none })]
        { jobId := some "j1", status := some "error",
          display_metric := none, message := none }).1 "j1").map Job.status
      = some (statusOrCompleted (some "error")) :=
  callback_overwrites_terminal
    [("j1", { id := "j1", status := "completed", progress := 100,
              email := "a@b",
              result := some { display_metric := some "0.92",
                               message := some "done" },
              message := none })]
    "j1"
    { id := "j1", status := "completed", progress := 100, email := "a@b",
      result := some { display_metric := some "0.92", message := some "done" },
      message := none }
    { jobId := some "j1", status := some "error",
      display_metric := none, message := none }
    rfl (by decide) rfl (Or.inl rfl)

/-- Claim C3 counterexample: on a valid upload whose content store
persist fails, the handler responds with a server error without ever
running the unlink on the local transient copy: the catch block of the
upload route contains no file deletion, so the copy survives the
failure path. -/
theorem storage_failure_keeps_local_file_counterexample :
    (handleUpload [] "j1" true (some "a@b") (StorageResult.err "boom")).2.2
      = false ∧
    (handleUpload [] "j1" true (some "a@b") (StorageResult.err "boom")).2.1
      = UploadResp.serverError
          "Upload process failed: Supabase upload failed: boom" := by decide

/-- Claim C3 (amended): the local transient copy of the payload is
deleted exactly on the success path, after the content store persist
succeeds; on the storage failure path no deletion happens and the copy
is left behind. -/
theorem local_file_deleted_only_on_success (jobs : Registry) (jid : String)
    (email : Option String) (e : String) (he : email = some e)
    (hne : e ≠ "") :
    (∀ u, (handleUpload jobs jid true email (StorageResult.ok u)).2.2 = true) ∧
    (∀ m, (handleUpload jobs jid true email (StorageResult.err m)).2.2 = false) := by
  subst he
  constructor <;> intro x <;> simp [handleUpload, hne]

theorem local_file_deleted_only_on_success_witness :
    (∀ u, (handleUpload [] "j1" true (some "a@b") (StorageResult.ok u)).2.2
      = true) ∧
    (∀ m, (handleUpload [] "j1" true (some "a@b") (StorageResult.err m)).2.2
      = false) :=
  local_file_deleted_only_on_success [] "j1" (some "a@b") "a@b" rfl (by decide)

/-- Claim C7 counterexample: a callback whose status field is present
but equal to the empty string does not store the reported value: the
falsy check in the handler replaces the empty string by completed, so
the stored status differs from the supplied one even though the
reported status was not absent. -/
theorem empty_status_defaulted_counterexample :
    (lookupJob (handleCallback
        [("j1", { id := "j1", status := "training", progress := 40,
                  email := "a@b", result := none, message := none })]
        { jobId := some "j1", status := some "",
          display_metric := none, message := none }).1 "j1").map Job.status
      = some "completed" ∧
    (some "" : Option String) ≠ none ∧ "completed" ≠ "" := by decide

/-- Claim C7 (amended): for a matched callback the handler stores the
record whose status is the reported value when that value is present
and non-empty and completed when the reported status is absent or the
empty string, whose progress is 100, and whose result payload is built
from the display_metric and message fields of the callback. -/
theorem callback_updates_record (jobs : Registry) (jid : String) (j : Job)
    (req : CallbackReq) (hreq : req.jobId = some jid) (hz : jid ≠ "")
    (hj : lookupJob jobs jid = some j) :
    lookupJob (handleCallback jobs req).1 jid
      = some { j with status := statusOrCompleted req.status, progress := 100,
                      result := some { display_metric := req.display_metric,
                                       message := req.message } } ∧
    (∀ s, req.status = some s → s ≠ "" → statusOrCompleted req.status = s) ∧
    (req.status = none → statusOrCompleted req.status = "completed") ∧
    (req.status = some "" → statusOrCompleted req.status = "completed") := by
  refine ⟨by simp [handleCallback, hreq, hz, hj, lookup_setJob_same],
          ?_, ?_, ?_⟩
  · intro s hs hsne
    simp [statusOrCompleted, hs, hsne]
  · intro hs
    simp [statusOrCompleted, hs]
  · intro hs
    simp [statusOrCompleted, hs]

theorem callback_updates_record_witness :
    lookupJob (handleCallback
        [("j1", { id := "j1", status := "training", progress := 40,
                  email := "a@b", result := none, message := none })]
        { jobId := some "j1", status := some "completed",
          display_metric := some "0.92", message := some "done" }).1 "j1"
      = some { id := "j1",
               status := statusOrCompleted (some "completed"), progress := 100,
               email := "a@b",
               result := some { display_metric := some "0.92",
                                message := some "done" },
               message := none } ∧
    (∀ s, (some "completed" : Option String) = some s → s ≠ "" →
      statusOrCompleted (some "completed") = s) ∧
    ((some "completed" : Option String) = none →
      statusOrCompleted (some "completed") = "completed") ∧
    ((some "completed" : Option String) = some "" →
      statusOrCompleted (some "completed") = "completed") :=
  callback_updates_record
    [("j1", { id := "j1", status := "training", progress := 40,
              email := "a@b", result := none, message := none })]
    "j1"
    { id := "j1", status := "training", progress := 40, email := "a@b",
      result := none, message := none }
    { jobId := some "j1", status := some "completed",
      display_metric := some "0.92", message := some "done" }
    rfl (by decide) rfl
